import Mathlib

/-!
Verification of the client-side live-queue synchronization engine of a clinic
token/queue dashboard.  The development shallowly embeds the reconciliation
logic of the two queue-display components, the priority-button dispatcher and
the SSE connection lifecycle, and proves or refutes the spec's claims about
them.

String-keyed JS objects (`Record<string, T>`) are embedded as association
lists with JS object-spread semantics: `{...prev, [k]: v}` replaces the value
at an existing key in place, or appends a fresh binding.
-/

/-- JS object read `m[k]`: the value at the first binding of `k`, if any. -/
def recordGet {α : Type} (m : List (String × α)) (k : String) : Option α :=
  (m.find? (fun p => p.1 == k)).map Prod.snd

/-- JS object write `{...m, [k]: v}`: replace the binding of `k` in place
(keeping its position), or append a fresh binding. -/
def recordSet {α : Type} : List (String × α) → String → α → List (String × α)
  | [], k, v => [(k, v)]
  | p :: t, k, v => if p.1 == k then (k, v) :: t else p :: recordSet t k v

theorem recordGet_nil {α : Type} (k : String) : recordGet ([] : List (String × α)) k = none := rfl

theorem recordGet_recordSet_self {α : Type} (m : List (String × α)) (k : String) (v : α) :
    recordGet (recordSet m k v) k = some v := by
  induction m with
  | nil => simp [recordGet, recordSet, List.find?]
  | cons p t ih =>
    by_cases hp : p.1 == k
    · simp [recordGet, recordSet, List.find?, hp]
    · simpa [recordGet, recordSet, List.find?, hp] using ih

theorem recordGet_recordSet_other {α : Type} (m : List (String × α)) (k k' : String) (v : α)
    (hne : k' ≠ k) : recordGet (recordSet m k v) k' = recordGet m k' := by
  have hkk : ¬ ((k : String) == k') = true := by
    simp only [beq_iff_eq]
    exact fun h => hne h.symm
  induction m with
  | nil => simp [recordGet, recordSet, List.find?, hkk]
  | cons p t ih =>
    by_cases hp : p.1 == k
    · have hpk : p.1 = k := by simpa using hp
      have hpk' : ¬ (p.1 == k') = true := by
        simp only [beq_iff_eq, hpk]
        exact fun h => hne h.symm
      simp [recordGet, recordSet, List.find?, hp, hkk, hpk']
    · by_cases hp' : p.1 == k'
      · simp [recordGet, recordSet, List.find?, hp, hp']
      · simpa [recordGet, recordSet, List.find?, hp, hp'] using ih

theorem recordSet_keys_mem {α : Type} (m : List (String × α)) (k : String) (v : α)
    (x : String) (hx : x ∈ (recordSet m k v).map Prod.fst) :
    x ∈ m.map Prod.fst ∨ x = k := by
  induction m with
  | nil => simpa [recordSet] using hx
  | cons p t ih =>
    by_cases hp : p.1 == k
    · simp only [recordSet, hp, if_pos] at hx
      rcases (by simpa using hx : x = k ∨ x ∈ t.map Prod.fst) with h | h
      · exact Or.inr h
      · exact Or.inl (by simp [h])
    · simp only [recordSet, hp, if_neg, Bool.not_eq_true] at hx
      rcases (by simpa using hx : x = p.1 ∨ x ∈ (recordSet t k v).map Prod.fst) with h | h
      · exact Or.inl (by simp [h])
      · rcases ih h with h' | h'
        · exact Or.inl (by simp [Or.inr (by simpa using h')])
        · exact Or.inr h'

theorem recordSet_keys_nodup {α : Type} (m : List (String × α)) (k : String) (v : α)
    (h : (m.map Prod.fst).Nodup) : ((recordSet m k v).map Prod.fst).Nodup := by
  induction m with
  | nil => simp [recordSet]
  | cons p t ih =>
    rw [List.map_cons, List.nodup_cons] at h
    by_cases hp : p.1 == k
    · have hpk : p.1 = k := by simpa using hp
      simp only [recordSet, hp, if_pos, List.map_cons, List.nodup_cons]
      exact ⟨by rw [← hpk]; exact h.1, h.2⟩
    · have hpk : p.1 ≠ k := by simpa using hp
      simp only [recordSet, hp, if_neg, Bool.not_eq_true, List.map_cons, List.nodup_cons]
      refine ⟨fun hmem => ?_, ih h.2⟩
      rcases recordSet_keys_mem t k v p.1 hmem with h' | h'
      · exact h.1 h'
      · exact hpk h'

/-!
## Model of the doctor-keyed queue component (the `QueueDisplay` variant that
keys state by `doctorId` and merges `queue_update` pushes, optimistic
call-next / complete, and snapshot fetches).
-/

namespace PartOne

/-- Token status as used by the queue display (`QueueItem.status`). -/
inductive TokenStatus
  | CHECKED_IN
  | IN_PROGRESS
  | COMPLETED
  | CANCELLED
deriving DecidableEq, Repr

/-- Token priority levels. -/
inductive TokenPriority
  | NORMAL
  | HIGH
  | EMERGENCY
deriving DecidableEq, Repr

/-- A queue entry (`QueueItem`). -/
structure QueueItem where
  tokenId : String
  tokenValue : String
  priority : TokenPriority
  patientId : String
  patientName : String
  scheduledDate : String
  status : TokenStatus
  score : Int
  rank : Nat
deriving DecidableEq, Repr

/-- Per-doctor reconciled queue state (`DoctorQueueState`).  `timestamp` is
the epoch-milliseconds of the last applied update, `none` before any update
(the `Date | null` field). -/
structure DoctorQueueState where
  departmentId : String
  departmentName : String
  doctorId : String
  doctorName : String
  waiting : List QueueItem
  active : Option QueueItem
  previous : Option QueueItem
  totalPatients : Nat
  timestamp : Option Nat
deriving DecidableEq, Repr

/-- The doctor-keyed map `Record<doctorId, DoctorQueueState>`. -/
def QueuesState := List (String × DoctorQueueState)
deriving DecidableEq

/-- The payload of a `queue_update` push event / a `/queue` REST entry
(`QueueUpdateData`).  `departmentName`/`doctorName` use `""` for an absent or
empty field (both are falsy to the source's `||`).  `queue` is `none` when
the payload's `queue` field is not an array. -/
structure QueueUpdateData where
  departmentId : String
  doctorId : String
  departmentName : String
  doctorName : String
  queue : Option (List QueueItem)
  totalPatients : Nat
  timestamp : Nat
deriving DecidableEq, Repr

/-- JS `a || b` on strings: `""` is falsy. -/
def jsOr (a b : String) : String := if a = "" then b else a

/-- A doctor record (only the fields the queue display reads). -/
structure Doctor where
  id : String
  fullName : String
deriving DecidableEq, Repr

/-- The fresh per-doctor state `updateDoctorQueue` builds when the doctor is
not yet in the map. -/
def defaultQueueState (doctors : List Doctor) (doctorId : String) : DoctorQueueState :=
  { departmentId := ""
    departmentName := ""
    doctorId := doctorId
    doctorName := jsOr (((doctors.find? (fun d => d.id == doctorId)).map Doctor.fullName).getD "") "N/A"
    waiting := []
    active := none
    previous := none
    totalPatients := 0
    timestamp := none }

/-- The state `updateDoctorQueue` hands to its update function: the doctor's
current state, or the default if the doctor is not in the map. -/
def existingQueueState (doctors : List Doctor) (qs : QueuesState) (doctorId : String) :
    DoctorQueueState :=
  (recordGet qs doctorId).getD (defaultQueueState doctors doctorId)

/-- `updateDoctorQueue`: apply an update function to one doctor's state. -/
def updateDoctorQueue (doctors : List Doctor) (qs : QueuesState) (doctorId : String)
    (updateFn : DoctorQueueState → DoctorQueueState) : QueuesState :=
  recordSet qs doctorId (updateFn (existingQueueState doctors qs doctorId))

/-- `handleQueueUpdate`: merge a `queue_update` push into the map.  The guard
mirrors `if (!data?.doctorId) return` (`""` is falsy). -/
def handleQueueUpdate (doctors : List Doctor) (qs : QueuesState) (data : QueueUpdateData) :
    QueuesState :=
  if data.doctorId = "" then qs
  else
    updateDoctorQueue doctors qs data.doctorId (fun prevState =>
      let activeToken : Option QueueItem :=
        match data.queue with
        | some q => q.find? (fun token => token.status == TokenStatus.IN_PROGRESS)
        | none => none
      { prevState with
        departmentId := data.departmentId
        departmentName := jsOr data.departmentName prevState.departmentName
        doctorName := jsOr data.doctorName prevState.doctorName
        waiting :=
          match data.queue with
          | some q => q.filter (fun token => token.status == TokenStatus.CHECKED_IN)
          | none => []
        active :=
          match activeToken with
          | some t => some t
          | none => prevState.active
        totalPatients := data.totalPatients
        timestamp := some data.timestamp })

/-- The optimistic update of `callNextToken`: guarded on a displayed queue for
the doctor with a `nextToken` (head of `waiting`); removes the called token
from `waiting`, promotes it to `active` and demotes `active` to `previous`. -/
def callNextToken (doctors : List Doctor) (qs : QueuesState) (doctorId : String) : QueuesState :=
  match recordGet qs doctorId with
  | none => qs
  | some st =>
    match st.waiting with
    | [] => qs
    | nextToken :: _ =>
      updateDoctorQueue doctors qs doctorId (fun prevState =>
        { prevState with
          waiting := prevState.waiting.filter (fun t => !(t.tokenId == nextToken.tokenId))
          active := some nextToken
          previous := prevState.active })

/-- The optimistic update of `completeCurrentToken`: guarded on a current
`active` token; clears `active` and demotes it to `previous`. -/
def completeCurrentToken (doctors : List Doctor) (qs : QueuesState) (doctorId : String) :
    QueuesState :=
  match recordGet qs doctorId with
  | none => qs
  | some st =>
    match st.active with
    | none => qs
    | some _ =>
      updateDoctorQueue doctors qs doctorId (fun prevState =>
        { prevState with
          active := none
          previous := prevState.active })

/-- The per-doctor state `fetchQueueData` builds from one REST `/queue`
entry: `waiting` from the CHECKED_IN tokens, `active` from the first
IN_PROGRESS token, `previous` from the first COMPLETED token. -/
def stateOfQueueData (data : QueueUpdateData) : DoctorQueueState :=
  { departmentId := data.departmentId
    departmentName := jsOr data.departmentName "Unknown Department"
    doctorId := data.doctorId
    doctorName := jsOr data.doctorName "Unknown Doctor"
    waiting := (data.queue.getD []).filter (fun token => token.status == TokenStatus.CHECKED_IN)
    active := (data.queue.getD []).find? (fun token => token.status == TokenStatus.IN_PROGRESS)
    previous := (data.queue.getD []).find? (fun token => token.status == TokenStatus.COMPLETED)
    totalPatients := data.totalPatients
    timestamp := some data.timestamp }

/-- `fetchQueueData`'s state write: build `newQueuesState` from the response
entries (a single object is the one-element list) and replace the whole map
with it (`setQueues(newQueuesState)`); the previous map is discarded. -/
def fetchQueueData (qs : QueuesState) (response : List QueueUpdateData) : QueuesState :=
  response.foldl (fun acc data => recordSet acc data.doctorId (stateOfQueueData data)) []

/-- The queue states reachable from the initial empty map via queue updates,
optimistic call-next, optimistic complete, and snapshot fetches. -/
inductive Reachable (doctors : List Doctor) : QueuesState → Prop
  | init : Reachable doctors []
  | update (qs : QueuesState) (data : QueueUpdateData) :
      Reachable doctors qs → Reachable doctors (handleQueueUpdate doctors qs data)
  | callNext (qs : QueuesState) (doctorId : String) :
      Reachable doctors qs → Reachable doctors (callNextToken doctors qs doctorId)
  | complete (qs : QueuesState) (doctorId : String) :
      Reachable doctors qs → Reachable doctors (completeCurrentToken doctors qs doctorId)
  | snapshot (qs : QueuesState) (response : List QueueUpdateData) :
      Reachable doctors qs → Reachable doctors (fetchQueueData qs response)

/-- Check that a doctor's `active` token id does not occur in its `waiting`
list. -/
def activeNotInWaiting (st : DoctorQueueState) : Bool :=
  match st.active with
  | none => true
  | some t => !(st.waiting.any (fun w => w.tokenId == t.tokenId))

/-- Check `activeNotInWaiting` for every doctor in the map. -/
def activeNotInWaitingAll (qs : QueuesState) : Bool :=
  qs.all (fun p => activeNotInWaiting p.2)

end PartOne

namespace PartOne

theorem handleQueueUpdate_keys_nodup (doctors : List Doctor) (qs : QueuesState)
    (data : QueueUpdateData) (h : (qs.map Prod.fst).Nodup) :
    ((handleQueueUpdate doctors qs data).map Prod.fst).Nodup := by
  unfold handleQueueUpdate
  split
  · exact h
  · exact recordSet_keys_nodup qs data.doctorId _ h

theorem callNextToken_keys_nodup (doctors : List Doctor) (qs : QueuesState)
    (doctorId : String) (h : (qs.map Prod.fst).Nodup) :
    ((callNextToken doctors qs doctorId).map Prod.fst).Nodup := by
  unfold callNextToken
  split
  · exact h
  · split
    · exact h
    · exact recordSet_keys_nodup qs doctorId _ h

theorem completeCurrentToken_keys_nodup (doctors : List Doctor) (qs : QueuesState)
    (doctorId : String) (h : (qs.map Prod.fst).Nodup) :
    ((completeCurrentToken doctors qs doctorId).map Prod.fst).Nodup := by
  unfold completeCurrentToken
  split
  · exact h
  · split
    · exact h
    · exact recordSet_keys_nodup qs doctorId _ h

theorem fetch_foldl_keys_nodup (response : List QueueUpdateData) (acc : QueuesState)
    (h : (acc.map Prod.fst).Nodup) :
    ((response.foldl
        (fun acc data => recordSet acc data.doctorId (stateOfQueueData data)) acc).map
      Prod.fst).Nodup := by
  induction response generalizing acc with
  | nil => exact h
  | cons data rest ih =>
    exact ih (recordSet acc data.doctorId (stateOfQueueData data))
      (recordSet_keys_nodup acc data.doctorId _ h)

theorem fetchQueueData_keys_nodup (qs : QueuesState) (response : List QueueUpdateData) :
    ((fetchQueueData qs response).map Prod.fst).Nodup :=
  fetch_foldl_keys_nodup response [] (by simp)

theorem fetch_foldl_uncovered (response : List QueueUpdateData) (acc : QueuesState)
    (doctorId : String) (hacc : recordGet acc doctorId = none)
    (h : ∀ data ∈ response, data.doctorId ≠ doctorId) :
    recordGet
      (response.foldl (fun acc data => recordSet acc data.doctorId (stateOfQueueData data)) acc)
      doctorId = none := by
  induction response generalizing acc with
  | nil => exact hacc
  | cons data rest ih =>
    refine ih _ ?_ (fun u hu => h u (List.mem_cons_of_mem data hu))
    rw [recordGet_recordSet_other acc data.doctorId doctorId _
      (fun heq => h data (List.mem_cons_self data rest) heq.symm)]
    exact hacc

end PartOne

namespace PartOne

/-- A CHECKED_IN token used in concrete scenarios. -/
def t1 : QueueItem :=
  { tokenId := "t1", tokenValue := "A1", priority := TokenPriority.NORMAL, patientId := "p1",
    patientName := "Pat", scheduledDate := "2025-01-01", status := TokenStatus.CHECKED_IN,
    score := 10, rank := 1 }

/-- An IN_PROGRESS token used in concrete scenarios. -/
def t2 : QueueItem :=
  { tokenId := "t2", tokenValue := "A2", priority := TokenPriority.HIGH, patientId := "p2",
    patientName := "Pat2", scheduledDate := "2025-01-01", status := TokenStatus.IN_PROGRESS,
    score := 20, rank := 2 }

/-- A queue update for doctor d1 at timestamp 10 whose queue is [t1]. -/
def u10 : QueueUpdateData :=
  { departmentId := "dep", doctorId := "d1", departmentName := "General", doctorName := "Doc",
    queue := some [t1], totalPatients := 1, timestamp := 10 }

/-- A queue update for doctor d1 at the older timestamp 5, with an empty queue. -/
def u5 : QueueUpdateData :=
  { departmentId := "dep", doctorId := "d1", departmentName := "General", doctorName := "Doc",
    queue := some [], totalPatients := 0, timestamp := 5 }

/-- A queue update for doctor d1 whose queue carries an IN_PROGRESS token. -/
def u11 : QueueUpdateData :=
  { departmentId := "dep", doctorId := "d1", departmentName := "General", doctorName := "Doc",
    queue := some [t1, t2], totalPatients := 2, timestamp := 11 }

/-- A queue update addressed to a different doctor d2. -/
def u12 : QueueUpdateData :=
  { departmentId := "dep", doctorId := "d2", departmentName := "General", doctorName := "Doc2",
    queue := some [t1], totalPatients := 1, timestamp := 12 }

/-- C1, counterexample.  Doctor d1 holds state with timestamp 10; the update
u5 carries the strictly older timestamp 5, yet applying it changes the state
(it replaces `waiting` and regresses the stored timestamp), so a stale update
is not a no-op. -/
theorem stale_update_not_noop :
    (recordGet (handleQueueUpdate [] [] u10) "d1").map DoctorQueueState.timestamp
        = some (some 10)
    ∧ u5.timestamp < 10
    ∧ handleQueueUpdate [] (handleQueueUpdate [] [] u10) u5 ≠ handleQueueUpdate [] [] u10
    ∧ (recordGet (handleQueueUpdate [] (handleQueueUpdate [] [] u10) u5) "d1").map
        DoctorQueueState.timestamp = some (some 5) := by
  refine ⟨by decide, by decide, ?_, by decide⟩
  decide

/-- C1, amended.  `handleQueueUpdate` performs no timestamp comparison at
all: every update with a non-empty `doctorId` is applied unconditionally, the
stored timestamp becomes the update's timestamp and `waiting` is replaced by
the update's CHECKED_IN tokens — even when the update's timestamp is older
than the one currently stored. -/
theorem handleQueueUpdate_no_timestamp_guard (doctors : List Doctor) (qs : QueuesState)
    (data : QueueUpdateData) (hid : data.doctorId ≠ "") :
    ∃ st, recordGet (handleQueueUpdate doctors qs data) data.doctorId = some st
      ∧ st.timestamp = some data.timestamp
      ∧ st.waiting
          = (data.queue.getD []).filter (fun token => token.status == TokenStatus.CHECKED_IN) := by
  unfold handleQueueUpdate
  rw [if_neg hid]
  unfold updateDoctorQueue
  refine ⟨_, recordGet_recordSet_self qs data.doctorId _, rfl, ?_⟩
  cases hq : data.queue with
  | none => simp
  | some q => simp

/-- C1 witness: the amended theorem applied to the concrete stale update u5
(timestamp 5) on top of the state left by u10 (timestamp 10). -/
theorem handleQueueUpdate_no_timestamp_guard_witness :
    ∃ st, recordGet (handleQueueUpdate [] (handleQueueUpdate [] [] u10) u5) u5.doctorId = some st
      ∧ st.timestamp = some u5.timestamp
      ∧ st.waiting
          = (u5.queue.getD []).filter (fun token => token.status == TokenStatus.CHECKED_IN) :=
  handleQueueUpdate_no_timestamp_guard [] (handleQueueUpdate [] [] u10) u5 (by decide)

end PartOne

namespace PartOne

/-- C3.  A queue update for a doctor replaces `waiting` with the update's
queue filtered to CHECKED_IN tokens; `active` is set from the update exactly
when the update's queue carries an IN_PROGRESS token and otherwise keeps the
prior value; `previous` is untouched. -/
theorem handleQueueUpdate_merge_spec (doctors : List Doctor) (qs : QueuesState)
    (data : QueueUpdateData) (hid : data.doctorId ≠ "") :
    ∃ st, recordGet (handleQueueUpdate doctors qs data) data.doctorId = some st
      ∧ st.waiting
          = (data.queue.getD []).filter (fun token => token.status == TokenStatus.CHECKED_IN)
      ∧ (∀ t, (data.queue.getD []).find? (fun token => token.status == TokenStatus.IN_PROGRESS)
            = some t → st.active = some t)
      ∧ ((data.queue.getD []).find? (fun token => token.status == TokenStatus.IN_PROGRESS)
            = none → st.active = (existingQueueState doctors qs data.doctorId).active)
      ∧ st.previous = (existingQueueState doctors qs data.doctorId).previous := by
  unfold handleQueueUpdate
  rw [if_neg hid]
  unfold updateDoctorQueue
  refine ⟨_, recordGet_recordSet_self qs data.doctorId _, ?_, ?_, ?_, rfl⟩
  · cases hq : data.queue with
    | none => simp
    | some q => simp
  · intro t ht
    cases hq : data.queue with
    | none => rw [hq] at ht; simp at ht
    | some q =>
      rw [hq] at ht
      simp only [Option.getD_some] at ht
      simp [hq, ht]
  · intro hnone
    cases hq : data.queue with
    | none => simp [hq]
    | some q =>
      rw [hq] at hnone
      simp only [Option.getD_some] at hnone
      simp [hq, hnone]

/-- C3 witness: the merge spec at two concrete updates, one whose queue has
no IN_PROGRESS token (u10: `active` keeps its prior value, here none) and one
whose queue has one (u11: `active` becomes t2). -/
theorem handleQueueUpdate_merge_spec_witness :
    (∃ st, recordGet (handleQueueUpdate [] [] u10) u10.doctorId = some st
        ∧ st.waiting = [t1] ∧ st.active = none ∧ st.previous = none)
    ∧ (∃ st, recordGet (handleQueueUpdate [] [] u11) u11.doctorId = some st
        ∧ st.active = some t2) := by
  constructor
  · obtain ⟨st, hget, hw, _hsome, hnone, hprev⟩ :=
      handleQueueUpdate_merge_spec [] [] u10 (by decide)
    refine ⟨st, hget, ?_, ?_, ?_⟩
    · rw [hw]; decide
    · rw [hnone (by decide)]; decide
    · rw [hprev]; decide
  · obtain ⟨st, hget, _hw, hsome, _hnone, _hprev⟩ :=
      handleQueueUpdate_merge_spec [] [] u11 (by decide)
    exact ⟨st, hget, hsome t2 (by decide)⟩

/-- C2, counterexample.  A reachable state in which the active token's id
does occur in `waiting`: doctor d1 receives u10 (waiting [t1]), the operator
optimistically calls t1 (active t1, waiting empty), then the same queue
update u10 is delivered again (out-of-order redelivery): `waiting` becomes
[t1] again while `active` stays t1, because the update carries no IN_PROGRESS
token and there is no timestamp guard. -/
theorem active_in_waiting_reachable :
    Reachable [] (handleQueueUpdate [] (callNextToken [] (handleQueueUpdate [] [] u10) "d1") u10)
    ∧ activeNotInWaitingAll
        (handleQueueUpdate [] (callNextToken [] (handleQueueUpdate [] [] u10) "d1") u10)
        = false := by
  constructor
  · exact Reachable.update _ _ (Reachable.callNext _ _ (Reachable.update _ _ Reachable.init))
  · decide

/-- C2, amended.  What does hold of every reachable state: the doctor-keyed
map never holds two entries for the same doctor, so each doctor has at most
one state and hence at most one active token.  Moreover a state built from a
single snapshot entry whose queue has pairwise-distinct token ids does keep
its active token's id out of `waiting`; the counterexample shows this fails
for reachable states in general once optimistic updates and redelivered
queue updates interleave. -/
theorem at_most_one_active_per_doctor :
    (∀ (doctors : List Doctor) (qs : QueuesState), Reachable doctors qs →
        (qs.map Prod.fst).Nodup)
    ∧ (∀ data : QueueUpdateData, ((data.queue.getD []).map QueueItem.tokenId).Nodup →
        activeNotInWaiting (stateOfQueueData data) = true) := by
  constructor
  · intro doctors qs h
    induction h with
    | init => simp
    | update qs data _ ih => exact handleQueueUpdate_keys_nodup doctors qs data ih
    | callNext qs doctorId _ ih => exact callNextToken_keys_nodup doctors qs doctorId ih
    | complete qs doctorId _ ih => exact completeCurrentToken_keys_nodup doctors qs doctorId ih
    | snapshot qs response _ _ => exact fetchQueueData_keys_nodup qs response
  · intro data hnodup
    unfold activeNotInWaiting stateOfQueueData
    simp only
    cases hfind : (data.queue.getD []).find?
        (fun token => token.status == TokenStatus.IN_PROGRESS) with
    | none => rfl
    | some t =>
      simp only [Bool.not_eq_true', List.any_eq_false]
      intro w hw
      have hwmem := List.mem_filter.mp hw
      have htmem := List.mem_of_find?_eq_some hfind
      have htstat : t.status = TokenStatus.IN_PROGRESS := by
        have := List.find?_some hfind
        simpa using this
      have hwstat : w.status = TokenStatus.CHECKED_IN := by
        have := hwmem.2
        simpa using this
      simp only [beq_eq_false_iff_ne, ne_eq]
      intro hid
      have hid' : w.tokenId = t.tokenId := by simpa using hid
      have : w = t := List.inj_on_of_nodup_map hnodup hwmem.1 htmem hid'
      rw [this, htstat] at hwstat
      exact absurd hwstat (by decide)

/-- C2 amended witness: the key-uniqueness fact at the initial state and the
snapshot no-overlap fact at the concrete entry u11. -/
theorem at_most_one_active_per_doctor_witness :
    (([] : QueuesState).map Prod.fst).Nodup
    ∧ activeNotInWaiting (stateOfQueueData u11) = true :=
  ⟨at_most_one_active_per_doctor.1 [] [] Reachable.init,
   at_most_one_active_per_doctor.2 u11 (by decide)⟩

end PartOne

namespace PartOne

/-- C5.  A snapshot fetch rebuilds the whole doctor-keyed map from the REST
response alone: the prior state — including any optimistic `active`/
`previous` left by a call-next — has no influence on the result, so the state
after an optimistic call-next followed by the corrective re-fetch is
identical to the state after a forced re-fetch; and each response entry fully
determines its doctor's state, with `waiting` the CHECKED_IN tokens of the
fetched queue. -/
theorem snapshot_replaces_and_reverts (doctors : List Doctor) (qs : QueuesState)
    (doctorId : String) (response : List QueueUpdateData) :
    fetchQueueData (callNextToken doctors qs doctorId) response = fetchQueueData qs response
    ∧ fetchQueueData qs response = fetchQueueData [] response
    ∧ (∀ data : QueueUpdateData,
        recordGet (fetchQueueData qs (response ++ [data])) data.doctorId
          = some (stateOfQueueData data))
    ∧ (∀ data : QueueUpdateData,
        (stateOfQueueData data).waiting
          = (data.queue.getD []).filter (fun token => token.status == TokenStatus.CHECKED_IN)) := by
  refine ⟨rfl, rfl, ?_, fun data => rfl⟩
  intro data
  unfold fetchQueueData
  rw [List.foldl_append]
  exact recordGet_recordSet_self _ data.doctorId _

/-- C10.  A snapshot fetch replaces the doctor-keyed map with exactly the
doctors of the response: any doctor no response entry addresses is absent
from the resulting map, even if it was present before the fetch. -/
theorem snapshot_drops_uncovered_doctors (qs : QueuesState)
    (response : List QueueUpdateData) (doctorId : String)
    (h : ∀ data ∈ response, data.doctorId ≠ doctorId) :
    recordGet (fetchQueueData qs response) doctorId = none :=
  fetch_foldl_uncovered response [] doctorId rfl h

/-- C10 witness: doctor d1 is present before the fetch, the response only
covers d2, and d1 is gone afterwards. -/
theorem snapshot_drops_uncovered_doctors_witness :
    recordGet (fetchQueueData (handleQueueUpdate [] [] u10) [u12]) "d1" = none :=
  snapshot_drops_uncovered_doctors (handleQueueUpdate [] [] u10) [u12] "d1" (by decide)

end PartOne

/-!
## Model of the (department, doctor)-keyed queue component (the
`QueueDisplay.tsx` variant) — the `token_called` reconciliation path.
-/

namespace Display

open PartOne (TokenPriority)

/-- A queue entry of this component (`QueueItem`): no status field; an
optional `patientName`. -/
structure QueueItem where
  tokenId : String
  tokenValue : String
  priority : TokenPriority
  departmentId : String
  score : Int
  rank : Nat
  patientName : Option String
deriving DecidableEq, Repr

/-- One entry of `waitingQueues` (`QueueState`): the fields the component
actually constructs. -/
structure QueueState where
  departmentId : String
  departmentName : String
  doctorId : String
  doctorName : String
  queue : List QueueItem
deriving DecidableEq, Repr

/-- One value of the `activeTokens` record: the current and previous token of
a (department, doctor) pair. -/
structure ActivePair where
  current : Option QueueItem
  previous : Option QueueItem
deriving DecidableEq, Repr

/-- The component state the `token_called` path touches: the `waitingQueues`
array and the `activeTokens` record. -/
structure DisplayState where
  waitingQueues : List QueueState
  activeTokens : List (String × ActivePair)
deriving DecidableEq, Repr

/-- A `token_called` push payload (`TokenCalledData`). -/
structure TokenCalledData where
  tokenId : String
  tokenValue : String
  departmentId : String
  doctorId : String
deriving DecidableEq, Repr

/-- The `activeTokens` key for a pair: the template string
`departmentId-doctorId`. -/
def activeKey (departmentId doctorId : String) : String :=
  departmentId ++ "-" ++ doctorId

/-- Read of `activeTokens[key]` with the `|| {current:null, previous:null}`
default. -/
def getActive (activeTokens : List (String × ActivePair)) (k : String) : ActivePair :=
  (recordGet activeTokens k).getD { current := none, previous := none }

/-- Locate the called token: the first `waitingQueues` entry matching the
event's department and doctor, then the token with the event's id inside its
queue. -/
def locateCalledToken (s : DisplayState) (e : TokenCalledData) : Option QueueItem :=
  (s.waitingQueues.find?
      (fun q => q.departmentId == e.departmentId && q.doctorId == e.doctorId)).bind
    (fun qs => qs.queue.find? (fun t => t.tokenId == e.tokenId))

/-- The `token_called` processing effect: if the referenced token is found in
the matching waiting queue, remove it from that queue, demote the pair's
current token to previous and promote the found token to current; otherwise
log and leave the state unchanged. -/
def applyTokenCalled (s : DisplayState) (e : TokenCalledData) : DisplayState :=
  match locateCalledToken s e with
  | none => s
  | some calledToken =>
    { waitingQueues :=
        s.waitingQueues.map (fun q =>
          if q.departmentId == e.departmentId && q.doctorId == e.doctorId then
            { q with queue := q.queue.filter (fun t => !(t.tokenId == e.tokenId)) }
          else q)
      activeTokens :=
        let k := activeKey e.departmentId e.doctorId
        let currentActive := getActive s.activeTokens k
        recordSet s.activeTokens k
          { previous := currentActive.current, current := some calledToken } }

end Display

namespace Display

theorem pairPred_apply (e : TokenCalledData) (q : QueueState) :
    ((if q.departmentId == e.departmentId && q.doctorId == e.doctorId then
        { q with queue := q.queue.filter (fun t => !(t.tokenId == e.tokenId)) }
      else q).departmentId == e.departmentId
     && (if q.departmentId == e.departmentId && q.doctorId == e.doctorId then
          { q with queue := q.queue.filter (fun t => !(t.tokenId == e.tokenId)) }
        else q).doctorId == e.doctorId)
    = (q.departmentId == e.departmentId && q.doctorId == e.doctorId) := by
  by_cases hp : (q.departmentId == e.departmentId && q.doctorId == e.doctorId) = true
  · rw [if_pos hp]
  · rw [if_neg hp]

theorem find?_map_pairPred (e : TokenCalledData) (l : List QueueState) :
    (l.map (fun q =>
        if q.departmentId == e.departmentId && q.doctorId == e.doctorId then
          { q with queue := q.queue.filter (fun t => !(t.tokenId == e.tokenId)) }
        else q)).find?
      (fun q => q.departmentId == e.departmentId && q.doctorId == e.doctorId)
    = Option.map (fun q =>
        if q.departmentId == e.departmentId && q.doctorId == e.doctorId then
          { q with queue := q.queue.filter (fun t => !(t.tokenId == e.tokenId)) }
        else q)
      (l.find? (fun q => q.departmentId == e.departmentId && q.doctorId == e.doctorId)) := by
  induction l with
  | nil => rfl
  | cons q rest ih =>
    rw [List.map_cons, List.find?_cons, List.find?_cons, pairPred_apply]
    cases hp : (q.departmentId == e.departmentId && q.doctorId == e.doctorId) with
    | true =>
      have hand : q.departmentId = e.departmentId ∧ q.doctorId = e.doctorId := by simpa using hp
      simp [hp, hand]
    | false => simpa using ih

theorem find?_filtered_token_none (e : TokenCalledData) (l : List QueueItem) :
    (l.filter (fun t => !(t.tokenId == e.tokenId))).find?
      (fun t => t.tokenId == e.tokenId) = none := by
  rw [List.find?_eq_none]
  intro x hx
  have := (List.mem_filter.mp hx).2
  simpa using this

/-- C4.  The `token_called` reconciliation: an event whose token id is not in
the matching waiting queue is a no-op; a found token is removed from that
waiting queue while the pair's current token moves to previous and the found
token becomes current; and processing the same event twice equals processing
it once. -/
theorem applyTokenCalled_spec (s : DisplayState) (e : TokenCalledData) :
    (locateCalledToken s e = none → applyTokenCalled s e = s)
    ∧ (∀ tok, locateCalledToken s e = some tok →
        getActive (applyTokenCalled s e).activeTokens (activeKey e.departmentId e.doctorId)
          = { current := some tok,
              previous := (getActive s.activeTokens (activeKey e.departmentId e.doctorId)).current }
        ∧ ∀ q ∈ (applyTokenCalled s e).waitingQueues,
            (q.departmentId == e.departmentId && q.doctorId == e.doctorId) = true →
            ∀ t ∈ q.queue, t.tokenId ≠ e.tokenId)
    ∧ applyTokenCalled (applyTokenCalled s e) e = applyTokenCalled s e := by
  refine ⟨?_, ?_, ?_⟩
  · intro h
    unfold applyTokenCalled
    rw [h]
  · intro tok h
    constructor
    · unfold applyTokenCalled
      rw [h]
      unfold getActive
      rw [recordGet_recordSet_self]
      rfl
    · intro q hq hpred t ht
      unfold applyTokenCalled at hq
      rw [h] at hq
      simp only [List.mem_map] at hq
      obtain ⟨q', hq', hfq⟩ := hq
      by_cases hp : (q'.departmentId == e.departmentId && q'.doctorId == e.doctorId) = true
      · rw [← hfq, if_pos hp] at ht
        have := (List.mem_filter.mp ht).2
        simpa using this
      · rw [← hfq, if_neg hp] at hpred
        exact absurd hpred hp
  · cases h : locateCalledToken s e with
    | none =>
      have hs : applyTokenCalled s e = s := by unfold applyTokenCalled; rw [h]
      simp only [hs]
    | some tok =>
      have hnone : locateCalledToken (applyTokenCalled s e) e = none := by
        cases hfind : s.waitingQueues.find?
            (fun q => q.departmentId == e.departmentId && q.doctorId == e.doctorId) with
        | none =>
          exfalso
          unfold locateCalledToken at h
          rw [hfind] at h
          simp at h
        | some q0 =>
          have hpred := List.find?_some hfind
          unfold applyTokenCalled
          rw [h]
          unfold locateCalledToken
          rw [find?_map_pairPred e s.waitingQueues, hfind]
          have hand : q0.departmentId = e.departmentId ∧ q0.doctorId = e.doctorId := by
            simpa using hpred
          simp [hpred, hand, List.mem_filter]
      generalize hx : applyTokenCalled s e = x at hnone ⊢
      unfold applyTokenCalled
      rw [hnone]

end Display

namespace Display

/-- A concrete waiting token for the token_called scenario. -/
def w1 : QueueItem :=
  { tokenId := "t1", tokenValue := "A1", priority := PartOne.TokenPriority.NORMAL,
    departmentId := "dep", score := 1, rank := 1, patientName := none }

/-- A concrete waiting-queue entry holding w1. -/
def wq1 : QueueState :=
  { departmentId := "dep", departmentName := "General", doctorId := "d1", doctorName := "Doc",
    queue := [w1] }

/-- A concrete display state with w1 waiting and no active token. -/
def ws1 : DisplayState := { waitingQueues := [wq1], activeTokens := [] }

/-- A token_called event referencing w1. -/
def ev1 : TokenCalledData :=
  { tokenId := "t1", tokenValue := "A1", departmentId := "dep", doctorId := "d1" }

/-- A token_called event referencing a token the client has not learned
about. -/
def evMiss : TokenCalledData :=
  { tokenId := "tX", tokenValue := "AX", departmentId := "dep", doctorId := "d1" }

/-- C4 witness: the spec applied at concrete inputs — the unknown-token event
is a no-op and the known-token event promotes w1 to current. -/
theorem applyTokenCalled_spec_witness :
    applyTokenCalled ws1 evMiss = ws1
    ∧ getActive (applyTokenCalled ws1 ev1).activeTokens (activeKey ev1.departmentId ev1.doctorId)
        = { current := some w1, previous := none } :=
  ⟨(applyTokenCalled_spec ws1 evMiss).1 (by decide),
   ((applyTokenCalled_spec ws1 ev1).2.1 w1 (by decide)).1⟩

end Display

/-!
## Model of the SSE connection lifecycle (`useEventSource.ts`): `connectSSE`,
`source.onopen`, `source.onerror` and the reconnect scheduling.
-/

namespace SSE

/-- The mutable refs the lifecycle reads and writes: the reconnect-attempt
counter and the first-open flag. -/
structure SSEState where
  reconnectAttempts : Nat
  isInitialConnect : Bool
deriving DecidableEq, Repr

/-- What one lifecycle step does that is visible to the caller: which
callback fired, the total delay (base plus jitter) of a scheduled reconnect
if one was scheduled, and whether the max-attempts alert was raised. -/
structure SSEOutput where
  firedOnOpen : Bool
  firedOnReconnect : Bool
  scheduledDelay : Option Nat
  maxAttemptsAlert : Bool
deriving DecidableEq, Repr

/-- A step with no caller-visible effect. -/
def quietOutput : SSEOutput :=
  { firedOnOpen := false, firedOnReconnect := false, scheduledDelay := none,
    maxAttemptsAlert := false }

/-- The ref initializers: `reconnectAttempts = 0`, `isInitialConnect =
true`. -/
def initialSSEState : SSEState := { reconnectAttempts := 0, isInitialConnect := true }

/-- `connectSSE`'s effect on the refs (with both ids present and the base
URL set): cleanup, then reset the reconnect attempts to 0. -/
def connectSSE (s : SSEState) : SSEState := { s with reconnectAttempts := 0 }

/-- `source.onopen`: reset the attempt counter; fire `onOpen` on the very
first open, `onReconnect` on every later open. -/
def handleOpen (s : SSEState) : SSEState × SSEOutput :=
  ({ reconnectAttempts := 0, isInitialConnect := false },
   { firedOnOpen := s.isInitialConnect, firedOnReconnect := !s.isInitialConnect,
     scheduledDelay := none, maxAttemptsAlert := false })

/-- `source.onerror` (with `reconnectOnClose` from the hook props and the
sampled `Math.random() * 1000` jitter): below 5 attempts, schedule a
reconnect after `min(1000 * 2^attempts, 10000) + jitter` ms and increment the
counter; at 5 or more, raise the max-attempts alert. -/
def handleError (reconnectOnClose : Bool) (jitter : Nat) (s : SSEState) : SSEState × SSEOutput :=
  if reconnectOnClose = true ∧ s.reconnectAttempts < 5 then
    ({ s with reconnectAttempts := s.reconnectAttempts + 1 },
     { firedOnOpen := false, firedOnReconnect := false,
       scheduledDelay := some (min (1000 * 2 ^ s.reconnectAttempts) 10000 + jitter),
       maxAttemptsAlert := false })
  else if 5 ≤ s.reconnectAttempts then
    (s, { firedOnOpen := false, firedOnReconnect := false, scheduledDelay := none,
          maxAttemptsAlert := true })
  else
    (s, quietOutput)

/-- The lifecycle events the refs react to: a `connectSSE` invocation
(initial connect, selection change, or a scheduled reconnect timer firing), a
successful transport open, and a transport error carrying its jitter
sample. -/
inductive SSEEvent
  | connect
  | openEv
  | errorEv (jitter : Nat)
deriving DecidableEq, Repr

/-- One lifecycle step. -/
def sseStep (reconnectOnClose : Bool) (s : SSEState) : SSEEvent → SSEState × SSEOutput
  | SSEEvent.connect => (connectSSE s, quietOutput)
  | SSEEvent.openEv => handleOpen s
  | SSEEvent.errorEv jitter => handleError reconnectOnClose jitter s

/-- Run a sequence of lifecycle events, collecting the outputs. -/
def sseRun (reconnectOnClose : Bool) (s : SSEState) :
    List SSEEvent → SSEState × List SSEOutput
  | [] => (s, [])
  | e :: es =>
    let step := sseStep reconnectOnClose s e
    let rest := sseRun reconnectOnClose step.1 es
    (rest.1, step.2 :: rest.2)

/-- A run of consecutive transport failures: each failure's scheduled
reconnect timer fires `connectSSE`, which is then followed by the next
failure. -/
def failureTrace : List Nat → List SSEEvent
  | [] => []
  | jitter :: rest => SSEEvent.connect :: SSEEvent.errorEv jitter :: failureTrace rest

/-- The number of open events in a trace. -/
def countOpens (evs : List SSEEvent) : Nat :=
  (evs.filter (fun e =>
    match e with
    | SSEEvent.openEv => true
    | _ => false)).length

end SSE

namespace SSE

theorem handleError_flags (rc : Bool) (jitter : Nat) (s : SSEState) :
    (handleError rc jitter s).2.firedOnOpen = false
    ∧ (handleError rc jitter s).2.firedOnReconnect = false
    ∧ (handleError rc jitter s).1.isInitialConnect = s.isInitialConnect := by
  unfold handleError
  split
  · exact ⟨rfl, rfl, rfl⟩
  · split
    · exact ⟨rfl, rfl, rfl⟩
    · exact ⟨rfl, rfl, rfl⟩

/-- C6, counterexample.  Three consecutive failures (jitter sampled 0): every
scheduled delay is 1000 ms and the attempt counter ends at 1, whereas the
claim predicts a second delay of min(1000*2^1, 10000) = 2000 ms and a counter
of 3: `connectSSE` resets the counter at the start of every attempt,
including the scheduled retries. -/
theorem backoff_counterexample :
    ((sseRun true initialSSEState (failureTrace [0, 0, 0])).2.filterMap
        SSEOutput.scheduledDelay) = [1000, 1000, 1000]
    ∧ (sseRun true initialSSEState (failureTrace [0, 0, 0])).1.reconnectAttempts = 1
    ∧ min (1000 * 2 ^ (2 - 1)) 10000 + 0 = 2000
    ∧ (1000 : Nat) ≠ 2000
    ∧ (1 : Nat) ≠ 3 := by
  decide

/-- C6, amended.  In a run of consecutive failures every reconnect delay is
1000 ms base plus that failure's jitter, because `connectSSE` resets the
attempt counter to 0 at the start of every connection attempt (the scheduled
retry included); the counter therefore reads 1 right after each failure, and
`source.onopen` also resets it to 0.  (There is no reset on message receipt
in this hook.) -/
theorem backoff_amended (s : SSEState) (jitters : List Nat) :
    ((sseRun true s (failureTrace jitters)).2.filterMap SSEOutput.scheduledDelay)
      = jitters.map (fun jitter => 1000 + jitter)
    ∧ (sseRun true s (failureTrace jitters)).1.reconnectAttempts
      = (if jitters.isEmpty then s.reconnectAttempts else 1)
    ∧ (handleOpen s).1.reconnectAttempts = 0 := by
  induction jitters generalizing s with
  | nil => exact ⟨rfl, rfl, rfl⟩
  | cons jitter rest ih =>
    have hstep : handleError true jitter (connectSSE s)
        = ({ reconnectAttempts := 1, isInitialConnect := s.isInitialConnect },
           { firedOnOpen := false, firedOnReconnect := false,
             scheduledDelay := some (1000 + jitter), maxAttemptsAlert := false }) := by
      have hmin : min (1000 * 2 ^ (0 : Nat)) 10000 = 1000 := by norm_num
      simp [handleError, connectSSE, hmin]
    obtain ⟨ih1, ih2, _⟩ := ih { reconnectAttempts := 1, isInitialConnect := s.isInitialConnect }
    refine ⟨?_, ?_, rfl⟩
    · have hr : (sseRun true s
          (SSEEvent.connect :: SSEEvent.errorEv jitter :: failureTrace rest)).2
          = quietOutput :: (handleError true jitter (connectSSE s)).2
            :: (sseRun true (handleError true jitter (connectSSE s)).1
                (failureTrace rest)).2 := rfl
      show (sseRun true s
          (SSEEvent.connect :: SSEEvent.errorEv jitter :: failureTrace rest)).2.filterMap
          SSEOutput.scheduledDelay = _
      rw [hr, hstep]
      simpa [quietOutput] using ih1
    · have hr : (sseRun true s
          (SSEEvent.connect :: SSEEvent.errorEv jitter :: failureTrace rest)).1
          = (sseRun true (handleError true jitter (connectSSE s)).1
              (failureTrace rest)).1 := rfl
      show (sseRun true s
          (SSEEvent.connect :: SSEEvent.errorEv jitter :: failureTrace rest)).1.reconnectAttempts
          = _
      rw [hr, hstep, ih2]
      cases hrest : rest.isEmpty <;> simp [hrest]

/-- C7, evaluation at the failing input.  Six consecutive failures: a
reconnect is scheduled after every one of them, the max-attempts alert never
fires and the counter ends at 1 — the `reconnectAttempts >= 5` terminal
branch is unreachable because `connectSSE` resets the counter on every
scheduled retry. -/
theorem reconnect_cap_unreachable :
    ((sseRun true initialSSEState (failureTrace [0, 0, 0, 0, 0, 0])).2.filterMap
        SSEOutput.scheduledDelay).length = 6
    ∧ ((sseRun true initialSSEState (failureTrace [0, 0, 0, 0, 0, 0])).2.all
        (fun o => !o.maxAttemptsAlert)) = true
    ∧ (sseRun true initialSSEState (failureTrace [0, 0, 0, 0, 0, 0])).1.reconnectAttempts = 1 := by
  decide

/-- C8, counterexample.  A trace with two successful opens and no transport
error at all (the second `connectSSE` comes from a selection change): the
second open fires `onReconnect`, although no failure preceded it. -/
theorem onReconnect_without_failure :
    countOpens [SSEEvent.connect, SSEEvent.openEv, SSEEvent.connect, SSEEvent.openEv] = 2
    ∧ ([SSEEvent.connect, SSEEvent.openEv, SSEEvent.connect, SSEEvent.openEv].all
        (fun e => match e with
          | SSEEvent.errorEv _ => false
          | _ => true)) = true
    ∧ ((sseRun true initialSSEState
          [SSEEvent.connect, SSEEvent.openEv, SSEEvent.connect, SSEEvent.openEv]).2.map
        SSEOutput.firedOnReconnect) = [false, false, false, true]
    ∧ ((sseRun true initialSSEState
          [SSEEvent.connect, SSEEvent.openEv, SSEEvent.connect, SSEEvent.openEv]).2.map
        SSEOutput.firedOnOpen) = [false, true, false, false] := by
  decide

theorem sse_open_counts (evs : List SSEEvent) (s : SSEState) :
    ((sseRun true s evs).2.filter (fun o => o.firedOnOpen)).length
      = (if s.isInitialConnect then min (countOpens evs) 1 else 0)
    ∧ ((sseRun true s evs).2.filter (fun o => o.firedOnReconnect)).length
      = (if s.isInitialConnect then countOpens evs - min (countOpens evs) 1
         else countOpens evs) := by
  induction evs generalizing s with
  | nil =>
    constructor <;> simp [sseRun, countOpens]
  | cons e es ih =>
    cases e with
    | connect =>
      have h := ih (connectSSE s)
      have hrw : (sseRun true s (SSEEvent.connect :: es)).2
          = quietOutput :: (sseRun true (connectSSE s) es).2 := rfl
      have hco : countOpens (SSEEvent.connect :: es) = countOpens es := by
        simp [countOpens]
      constructor
      · rw [hrw, List.filter_cons, hco]
        simpa [quietOutput, connectSSE] using h.1
      · rw [hrw, List.filter_cons, hco]
        simpa [quietOutput, connectSSE] using h.2
    | openEv =>
      have h := ih { reconnectAttempts := 0, isInitialConnect := false }
      have h1 := h.1
      have h2 := h.2
      simp only [if_neg (by decide : ¬ (false = true))] at h1 h2
      have hrw : (sseRun true s (SSEEvent.openEv :: es)).2
          = (handleOpen s).2
            :: (sseRun true { reconnectAttempts := 0, isInitialConnect := false } es).2 := rfl
      have hco : countOpens (SSEEvent.openEv :: es) = countOpens es + 1 := by
        simp [countOpens]
      cases hin : s.isInitialConnect with
      | true =>
        constructor
        · rw [hrw, List.filter_cons, hco]
          simp [handleOpen, hin, h1]
        · rw [hrw, List.filter_cons, hco]
          simp [handleOpen, hin, h2]
      | false =>
        constructor
        · rw [hrw, List.filter_cons, hco]
          simp [handleOpen, hin, h1]
        · rw [hrw, List.filter_cons, hco]
          simp [handleOpen, hin, h2]
    | errorEv jitter =>
      obtain ⟨hf1, hf2, hstate⟩ := handleError_flags true jitter s
      have h := ih (handleError true jitter s).1
      rw [hstate] at h
      have hrw : (sseRun true s (SSEEvent.errorEv jitter :: es)).2
          = (handleError true jitter s).2
            :: (sseRun true (handleError true jitter s).1 es).2 := rfl
      have hco : countOpens (SSEEvent.errorEv jitter :: es) = countOpens es := by
        simp [countOpens]
      constructor
      · rw [hrw, List.filter_cons, hco, hf1]
        simpa using h.1
      · rw [hrw, List.filter_cons, hco, hf2]
        simpa using h.2

/-- C8, amended.  Over any event trace from the initial state, `onOpen` fires
exactly once as soon as there is at least one successful open (only the very
first open fires it), and `onReconnect` fires on every successful open after
the first — whether or not a transport failure preceded it. -/
theorem open_callbacks_amended (evs : List SSEEvent) :
    ((sseRun true initialSSEState evs).2.filter (fun o => o.firedOnOpen)).length
      = min (countOpens evs) 1
    ∧ ((sseRun true initialSSEState evs).2.filter (fun o => o.firedOnReconnect)).length
      = countOpens evs - min (countOpens evs) 1 := by
  have h := sse_open_counts evs initialSSEState
  exact ⟨by simpa [initialSSEState] using h.1, by simpa [initialSSEState] using h.2⟩

end SSE

/-!
## Model of the priority controls (`UpdatePriorityButton` and
`handleUpdatePriority`): boundary clamping and the per-token in-flight flag.
-/

namespace Priority

open PartOne (TokenPriority)

/-- The two priority actions. -/
inductive PriorityAction
  | increase
  | decrease
deriving DecidableEq, Repr

/-- A priority-update request as sent to the REST API. -/
structure PriorityRequest where
  tokenId : String
  action : PriorityAction
deriving DecidableEq, Repr

/-- Read of `updatingPriorities[tokenId]` (missing keys are falsy). -/
def getFlag (updatingPriorities : List (String × Bool)) (tokenId : String) : Bool :=
  ((recordGet updatingPriorities tokenId).getD false)

/-- The decrease button's `disabled` attribute: in-flight, or priority
already NORMAL. -/
def decreaseDisabled (updatingPriorities : List (String × Bool)) (tokenId : String)
    (priority : TokenPriority) : Bool :=
  getFlag updatingPriorities tokenId || priority == TokenPriority.NORMAL

/-- The increase button's `disabled` attribute: in-flight, or priority
already EMERGENCY. -/
def increaseDisabled (updatingPriorities : List (String × Bool)) (tokenId : String)
    (priority : TokenPriority) : Bool :=
  getFlag updatingPriorities tokenId || priority == TokenPriority.EMERGENCY

/-- The `disabled` attribute of the button for a given action. -/
def buttonDisabled (updatingPriorities : List (String × Bool)) (tokenId : String)
    (priority : TokenPriority) : PriorityAction → Bool
  | PriorityAction.increase => increaseDisabled updatingPriorities tokenId priority
  | PriorityAction.decrease => decreaseDisabled updatingPriorities tokenId priority

/-- A click on a priority button: a disabled button never invokes its
`onClick`, so nothing happens; an enabled button runs `handleUpdatePriority`,
which sets the token's in-flight flag and issues the request. -/
def clickUpdatePriority (updatingPriorities : List (String × Bool)) (tokenId : String)
    (priority : TokenPriority) (action : PriorityAction) :
    List (String × Bool) × Option PriorityRequest :=
  if buttonDisabled updatingPriorities tokenId priority action then
    (updatingPriorities, none)
  else
    (recordSet updatingPriorities tokenId true, some { tokenId := tokenId, action := action })

/-- The `finally` branch of `handleUpdatePriority`: clear the token's
in-flight flag once the request settles. -/
def finishUpdatePriority (updatingPriorities : List (String × Bool)) (tokenId : String) :
    List (String × Bool) :=
  recordSet updatingPriorities tokenId false

/-- C9.  No priority-increase request is ever issued at EMERGENCY, no
decrease request at NORMAL, and no request at all while the token's in-flight
flag is set: the corresponding button is disabled, so the click dispatches
nothing. -/
theorem priority_requests_clamped (updatingPriorities : List (String × Bool))
    (tokenId : String) (priority : TokenPriority) (action : PriorityAction) :
    (action = PriorityAction.increase → priority = TokenPriority.EMERGENCY →
      (clickUpdatePriority updatingPriorities tokenId priority action).2 = none)
    ∧ (action = PriorityAction.decrease → priority = TokenPriority.NORMAL →
      (clickUpdatePriority updatingPriorities tokenId priority action).2 = none)
    ∧ (getFlag updatingPriorities tokenId = true →
      (clickUpdatePriority updatingPriorities tokenId priority action).2 = none) := by
  refine ⟨?_, ?_, ?_⟩
  · intro ha hp
    subst ha; subst hp
    unfold clickUpdatePriority
    rw [if_pos (by simp [buttonDisabled, increaseDisabled])]
  · intro ha hp
    subst ha; subst hp
    unfold clickUpdatePriority
    rw [if_pos (by simp [buttonDisabled, decreaseDisabled])]
  · intro hflag
    unfold clickUpdatePriority
    cases action with
    | increase =>
      rw [if_pos (by simp [buttonDisabled, increaseDisabled, hflag])]
    | decrease =>
      rw [if_pos (by simp [buttonDisabled, decreaseDisabled, hflag])]

/-- C9 witness: the three no-request facts at concrete inputs — increase at
EMERGENCY, decrease at NORMAL, and any click while the token is in
flight. -/
theorem priority_requests_clamped_witness :
    (clickUpdatePriority [] "t1" TokenPriority.EMERGENCY PriorityAction.increase).2 = none
    ∧ (clickUpdatePriority [] "t1" TokenPriority.NORMAL PriorityAction.decrease).2 = none
    ∧ (clickUpdatePriority [("t1", true)] "t1" TokenPriority.HIGH
        PriorityAction.increase).2 = none :=
  ⟨(priority_requests_clamped [] "t1" TokenPriority.EMERGENCY PriorityAction.increase).1
      rfl rfl,
   (priority_requests_clamped [] "t1" TokenPriority.NORMAL PriorityAction.decrease).2.1
      rfl rfl,
   (priority_requests_clamped [("t1", true)] "t1" TokenPriority.HIGH
      PriorityAction.increase).2.2 (by decide)⟩

end Priority
